import Mathlib

/-!
Real-time character counter (`src/index.js`).

A shallow embedding of the script's handlers over an explicit page state, and the
properties of the written specification stated against it.

* JavaScript Numbers are IEEE-754 binary64 values.  A finite value is stored as a sign and a
  magnitude counted in units of `2^-1074` (the least positive double), so every finite double
  has exactly one representation and all arithmetic is carried out on naturals, with
  round-to-nearest, ties-to-even.
* JavaScript Strings are sequences of UTF-16 code units of length at most `2^53 - 1`.
* `MAX_LENGTH` is the raw `maxLength` attribute.  Every use in the script converts it with
  ToNumber (`-`, `/`, `>` against a Number, and the index argument of `substring`), so the
  embedding takes the resulting Number as a parameter.
* `setTimeout` callbacks are recorded in the page state; the body of each callback is a
  function on page states.
* The page state records, for each display, the text the script last assigned to it.
* `init`, `setupEventListeners` and `addNotificationStyles` only wire the handlers below to
  events and install a style sheet; they are not embedded.
-/

set_option exponentiation.threshold 4096
set_option maxRecDepth 4096

namespace CharCounter

/-! ## Numbers -/

/-- The value `1` counted in units of `2^-1074`. -/
def unit : Nat := 2 ^ 1074

/-- The value `2^1024` counted in units of `2^-1074`: magnitudes from here on overflow. -/
def overflow : Nat := 2 ^ 2098

/-- A JavaScript Number.  `fin neg mag` denotes `(-1)^neg * mag * 2^-1074`; `fin true 0` is
the negative zero. -/
inductive JSNumber
  | nan
  | inf (neg : Bool)
  | fin (neg : Bool) (mag : Nat)
deriving DecidableEq, Repr

/-- Bit length by repeated halving, 64 bits at a time while that many remain; the first
argument bounds the number of steps. -/
def bitLenAux : Nat → Nat → Nat
  | 0, _ => 0
  | fuel + 1, n =>
    if n = 0 then 0
    else if 2 ^ 64 ≤ n then bitLenAux fuel (n / 2 ^ 64) + 64
    else bitLenAux fuel (n / 2) + 1

/-- Number of binary digits of `n` (`0` for `0`). -/
def bitLen (n : Nat) : Nat := bitLenAux n n

/-- The integer nearest to `p / q`, a tie going to the even neighbour. -/
def roundHalfEven (p q : Nat) : Nat :=
  let f := p / q
  let r := p % q
  if 2 * r < q then f else if q < 2 * r then f + 1 else if f % 2 = 0 then f else f + 1

namespace JSNumber

/-- The double nearest to the exact magnitude `p / q` (in units of `2^-1074`), with sign
`neg`: 53 significant bits, gradual underflow, overflow to infinity. -/
def round (neg : Bool) (p q : Nat) : JSNumber :=
  let t := bitLen (p / q) - 53
  let v := roundHalfEven p (q * 2 ^ t) * 2 ^ t
  if overflow ≤ v then inf neg else fin neg v

/-- Whether the value is a genuine double: a finite magnitude has at most 53 significant bits
and lies below `2^1024`. -/
def isDouble : JSNumber → Bool
  | nan => true
  | inf _ => true
  | fin _ m => decide (m < overflow) && decide (m % 2 ^ (bitLen m - 53) = 0)

/-- The Number with the exact value `n` (no rounding). -/
def ofNat (n : Nat) : JSNumber := fin false (n * unit)

/-- The Number with the exact value `z` (no rounding); `0` is the positive zero. -/
def exact (z : Int) : JSNumber := fin (decide (z < 0)) (z.natAbs * unit)

/-- ToNumber of the decimal numeral of the integer `z`, the value an integer `maxLength`
attribute gives `MAX_LENGTH`: the nearest double, a tie going to the even significand. -/
def ofInt (z : Int) : JSNumber := round (decide (z < 0)) (z.natAbs * unit) 1

/-- Unary minus. -/
def neg : JSNumber → JSNumber
  | nan => nan
  | inf s => inf (!s)
  | fin s m => fin (!s) m

/-- Number::add. -/
def add : JSNumber → JSNumber → JSNumber
  | nan, _ => nan
  | _, nan => nan
  | inf a, inf b => if a = b then inf a else nan
  | inf a, fin _ _ => inf a
  | fin _ _, inf b => inf b
  | fin sa a, fin sb b =>
    if sa = sb then round sa (a + b) 1
    else if a = b then fin false 0
    else if b < a then round sa (a - b) 1
    else round sb (b - a) 1

/-- Number::subtract, the `-` operator: `x - y` is `x + (-y)`. -/
def sub (x y : JSNumber) : JSNumber := add x (neg y)

/-- Number::divide, the `/` operator. -/
def div : JSNumber → JSNumber → JSNumber
  | nan, _ => nan
  | _, nan => nan
  | inf _, inf _ => nan
  | inf a, fin sb _ => inf (xor a sb)
  | fin sa _, inf b => fin (xor sa b) 0
  | fin sa a, fin sb b =>
    if b = 0 then (if a = 0 then nan else inf (xor sa sb))
    else round (xor sa sb) (a * unit) b

/-- Number::multiply, the `*` operator. -/
def mul : JSNumber → JSNumber → JSNumber
  | nan, _ => nan
  | _, nan => nan
  | inf a, inf b => inf (xor a b)
  | inf a, fin sb b => if b = 0 then nan else inf (xor a sb)
  | fin sa a, inf b => if a = 0 then nan else inf (xor sa b)
  | fin sa a, fin sb b => round (xor sa sb) (a * b) unit

/-- The signed magnitude of a finite value (both zeros give `0`). -/
def signed (s : Bool) (m : Nat) : Int := if s then -(m : Int) else (m : Int)

/-- The `<` operator on Numbers: false as soon as an operand is NaN. -/
def lt : JSNumber → JSNumber → Bool
  | nan, _ => false
  | _, nan => false
  | inf a, inf b => a && !b
  | inf a, fin _ _ => a
  | fin _ _, inf b => !b
  | fin sa a, fin sb b => decide (signed sa a < signed sb b)

/-- The `>` operator. -/
def gt (x y : JSNumber) : Bool := lt y x

/-- The `>=` operator: `x >= y` holds when `x < y` is false and no operand is NaN. -/
def ge : JSNumber → JSNumber → Bool
  | nan, _ => false
  | _, nan => false
  | x, y => !(lt x y)

/-- Math.round: the nearest integer, a tie going towards `+∞`; values in `[-0.5, -0]` give the
negative zero. -/
def mathRound : JSNumber → JSNumber
  | nan => nan
  | inf s => inf s
  | fin false m => fin false ((2 * m + unit) / (2 * unit) * unit)
  | fin true m => fin true ((2 * m - unit + (2 * unit - 1)) / (2 * unit) * unit)

/-- ToIntegerOrInfinity followed by clamping into `[0, len]`, as `substring` does with each
of its arguments. -/
def clampIndex (x : JSNumber) (len : Nat) : Nat :=
  match x with
  | nan => 0
  | inf s => if s then 0 else len
  | fin s m => if s then 0 else min (m / unit) len

end JSNumber

/-! ## Strings -/

/-- A JavaScript String: a sequence of UTF-16 code units, at most `2^53 - 1` of them. -/
structure JSString where
  units : List UInt16
  bound : units.length < 2 ^ 53

namespace JSString

instance : DecidableEq JSString := fun a b =>
  decidable_of_iff (a.units = b.units) (by cases a; cases b; simp)

/-- The empty string `''`. -/
def empty : JSString := ⟨[], by decide⟩

/-- The `length` property, a Number; it is exact because lengths stay below `2^53`. -/
def length (s : JSString) : JSNumber := JSNumber.ofNat s.units.length

/-- WhiteSpace and LineTerminator code units, the ones `trim` strips. -/
def isWhiteSpace (c : UInt16) : Bool :=
  let n := c.toNat
  n = 0x0009 || n = 0x000A || n = 0x000B || n = 0x000C || n = 0x000D || n = 0x0020 ||
  n = 0x00A0 || n = 0x1680 || (0x2000 ≤ n && n ≤ 0x200A) || n = 0x2028 || n = 0x2029 ||
  n = 0x202F || n = 0x205F || n = 0x3000 || n = 0xFEFF

/-- String.prototype.trim: drop white space from both ends. -/
def trim (s : JSString) : JSString :=
  ⟨((s.units.dropWhile isWhiteSpace).reverse.dropWhile isWhiteSpace).reverse, by
    have h1 := (List.dropWhile_sublist isWhiteSpace
      (l := (s.units.dropWhile isWhiteSpace).reverse)).length_le
    have h2 := (List.dropWhile_sublist isWhiteSpace (l := s.units)).length_le
    have h3 := s.bound
    simp only [List.length_reverse] at h1 ⊢
    omega⟩

/-- String.prototype.substring(start, end): both arguments are clamped into `[0, length]`
and swapped if out of order. -/
def substring (s : JSString) (start stop : JSNumber) : JSString :=
  let a := JSNumber.clampIndex start s.units.length
  let b := JSNumber.clampIndex stop s.units.length
  ⟨(s.units.take (max a b)).drop (min a b), by
    have h := s.bound
    simp only [List.length_drop, List.length_take]
    omega⟩

/-- Truthiness of a string: only the empty string is falsy. -/
def truthy (s : JSString) : Bool := !s.units.isEmpty

end JSString

/-! ## Page state -/

/-- Text assigned to `textContent` or to a style property: a literal, the string
conversion of a Number, or the template `${x}%`. -/
inductive Text
  | str (s : String)
  | num (x : JSNumber)
  | percent (x : JSNumber)
deriving DecidableEq, Repr

/-- The element created by `showNotification` (its fixed layout styles are left out). -/
structure Notification where
  id : Nat
  className : String
  textContent : String
  transform : String
  backgroundColor : String
deriving DecidableEq, Repr

/-- The bodies of the callbacks the script hands to `setTimeout`. -/
inductive Callback
  | removePulse
  | pasteCorrection
  | restoreClearLabel
  | restoreCopyLabel
  | slideIn (id : Nat)
  | slideOut (id : Nat)
  | detach (id : Nat)
deriving DecidableEq, Repr

/-- What a rejected clipboard write carries. -/
abbrev Fault := String

/-- The part of the document and platform state the script reads or writes. -/
structure Page where
  /-- Holds `textareaEl.value`. -/
  value : JSString
  /-- Whether `textareaEl === document.activeElement`. -/
  focused : Bool
  /-- Whether the field can take focus (it is rendered and not disabled). -/
  focusable : Bool
  /-- Holds `totalCounterEl.textContent`. -/
  totalText : Text
  /-- Holds `remainingCounterEl.textContent`. -/
  remainingText : Text
  /-- Holds the text last assigned to `progressFillEl.style.width`. -/
  fillWidth : Text
  /-- Holds `progressTextEl.textContent`. -/
  progressText : Text
  /-- Whether `totalCounterEl` carries the class `counter-update`. -/
  totalPulse : Bool
  /-- Holds the text last assigned to `remainingCounterEl.style.color`. -/
  remainingColor : String
  /-- Holds the text last assigned to `progressFillEl.style.background`. -/
  fillBackground : String
  /-- Holds the text last assigned to `textareaEl.style.borderColor`. -/
  borderColor : String
  /-- Holds `clearBtn.textContent`. -/
  clearLabel : String
  /-- Holds `copyBtn.textContent`. -/
  copyLabel : String
  /-- Notification elements attached to `document.body`, oldest first. -/
  notifications : List Notification
  /-- Identity given to the next created notification element. -/
  nextId : Nat
  /-- Pending `setTimeout` calls, in the order they were made: delay in ms and callback. -/
  timers : List (Nat × Callback)
  /-- Arguments of the calls to `navigator.clipboard.writeText`, in order. -/
  clipboardWrites : List JSString
  /-- Arguments of the calls to `console.error`. -/
  console : List (String × Fault)

/-- The call `setTimeout(cb, ms)`. -/
def setTimeout (cb : Callback) (ms : Nat) (s : Page) : Page :=
  { s with timers := s.timers ++ [(ms, cb)] }

/-! ## The script -/

/-- Add animation to counter elements (only ever called on `totalCounterEl`). -/
def animateCounter (s : Page) : Page :=
  setTimeout .removePulse 300 { s with totalPulse := true }

/-- Update visual state based on character count. -/
def updateVisualState (_currentLength percentage : JSNumber) (s : Page) : Page :=
  let s :=
    if percentage.ge (JSNumber.ofNat 90) then
      { s with remainingColor := "#e74c3c"
               fillBackground := "linear-gradient(90deg, #e74c3c, #c0392b)" }
    else if percentage.ge (JSNumber.ofNat 75) then
      { s with remainingColor := "#e67e22"
               fillBackground := "linear-gradient(90deg, #e67e22, #d35400)" }
    else
      { s with remainingColor := "#2ecc71"
               fillBackground := "linear-gradient(90deg, #2ecc71, #3498db)" }
  if percentage.ge (JSNumber.ofNat 100) then
    { s with borderColor := "#e74c3c" }
  else if s.focused then
    { s with borderColor := "#3498db" }
  else
    { s with borderColor := "#e0e0e0" }

/-- Update character counter and progress. -/
def updateCounter (MAX_LENGTH : JSNumber) (s : Page) : Page :=
  let currentLength := s.value.length
  let remaining := MAX_LENGTH.sub currentLength
  let percentage := (currentLength.div MAX_LENGTH).mul (JSNumber.ofNat 100)
  let s := { s with totalText := .num currentLength, remainingText := .num remaining }
  let s := { s with fillWidth := .percent percentage
                    progressText := .percent percentage.mathRound }
  let s := animateCounter s
  updateVisualState currentLength percentage s

/-- The callback `handlePaste` defers: cut the buffer back to `MAX_LENGTH`, then refresh. -/
def pasteCorrection (MAX_LENGTH : JSNumber) (s : Page) : Page :=
  let s :=
    if s.value.length.gt MAX_LENGTH then
      { s with value := s.value.substring (JSNumber.ofNat 0) MAX_LENGTH }
    else s
  updateCounter MAX_LENGTH s

/-- Handle paste event to ensure max length is respected. -/
def handlePaste (s : Page) : Page :=
  setTimeout .pasteCorrection 0 s

/-- The call `textareaEl.focus()`: a field that can take focus becomes the active element;
on a field that cannot, the call does nothing. -/
def focus (s : Page) : Page :=
  if s.focusable then { s with focused := true } else s

/-- Clear all text from textarea. -/
def clearText (MAX_LENGTH : JSNumber) (s : Page) : Page :=
  let s := { s with value := JSString.empty }
  let s := focus s
  let s := updateCounter MAX_LENGTH s
  let s := { s with clearLabel := "Cleared!" }
  setTimeout .restoreClearLabel 1000 s

/-- Show notification message (every call in the script passes `type`, so its default
`'info'` is not needed). -/
def showNotification (message : String) (type : String) (s : Page) : Page :=
  let bgColor :=
    if type = "success" then "#2ecc71" else if type = "error" then "#e74c3c" else "#3498db"
  let notification : Notification :=
    { id := s.nextId
      className := "notification " ++ type
      textContent := message
      transform := "translateX(100%)"
      backgroundColor := bgColor }
  let s := { s with notifications := s.notifications ++ [notification]
                    nextId := s.nextId + 1 }
  let s := setTimeout (.slideIn notification.id) 100 s
  setTimeout (.slideOut notification.id) 3000 s

/-- Copy text to clipboard, up to the `await`: the guard on the trimmed buffer and the call
to `navigator.clipboard.writeText`, whose argument is returned when the call was made. -/
def copyTextStart (s : Page) : Page × Option JSString :=
  if !s.value.trim.truthy then
    (showNotification "No text to copy!" "error" s, none)
  else
    ({ s with clipboardWrites := s.clipboardWrites ++ [s.value] }, some s.value)

/-- Copy text to clipboard, from the `await` on: the rest of the `try` block when the write
resolved, the `catch` block when it was rejected with `err`. -/
def copyTextResume (result : Except Fault Unit) (s : Page) : Except Fault Page :=
  match result with
  | .ok () =>
    let s := showNotification "Text copied to clipboard!" "success" s
    let s := { s with copyLabel := "Copied!" }
    .ok (setTimeout .restoreCopyLabel 1000 s)
  | .error err =>
    let s := { s with console := s.console ++ [("Failed to copy text: ", err)] }
    .ok (showNotification "Failed to copy text" "error" s)

/-- Copy text to clipboard: one run of the handler against a clipboard that answers each
write with `clipboard text`, no other handler running during the `await`. -/
def copyText (clipboard : JSString → Except Fault Unit) (s : Page) : Except Fault Page :=
  match copyTextStart s with
  | (s, none) => .ok s
  | (s, some text) => copyTextResume (clipboard text) s

/-- Run one `setTimeout` callback. -/
def runCallback (MAX_LENGTH : JSNumber) (cb : Callback) (s : Page) : Page :=
  match cb with
  | .removePulse => { s with totalPulse := false }
  | .pasteCorrection => pasteCorrection MAX_LENGTH s
  | .restoreClearLabel => { s with clearLabel := "Clear Text" }
  | .restoreCopyLabel => { s with copyLabel := "Copy Text" }
  | .slideIn id =>
    { s with notifications := s.notifications.map fun n =>
        if n.id = id then { n with transform := "translateX(0)" } else n }
  | .slideOut id =>
    setTimeout (.detach id) 300
      { s with notifications := s.notifications.map fun n =>
          if n.id = id then { n with transform := "translateX(100%)" } else n }
  | .detach id => { s with notifications := s.notifications.filter fun n => n.id ≠ id }

/-- What the counter shows: count text, remaining text, progress width, progress label,
remaining-count colour, fill gradient and border colour. -/
def Page.displays (s : Page) : Text × Text × Text × Text × String × String × String :=
  (s.totalText, s.remainingText, s.fillWidth, s.progressText, s.remainingColor,
    s.fillBackground, s.borderColor)

/-! ## The palettes named by the specification -/

/-- A palette: the colour of the remaining count and the gradient of the progress fill. -/
structure Palette where
  color : String
  gradient : String
deriving DecidableEq, Repr

/-- The danger palette. -/
def Palette.danger : Palette := ⟨"#e74c3c", "linear-gradient(90deg, #e74c3c, #c0392b)"⟩

/-- The warning palette. -/
def Palette.warning : Palette := ⟨"#e67e22", "linear-gradient(90deg, #e67e22, #d35400)"⟩

/-- The success palette. -/
def Palette.success : Palette := ⟨"#2ecc71", "linear-gradient(90deg, #2ecc71, #3498db)"⟩

/-- The palette as the specification words it: `percentage ≥ 90` gives danger,
`75 ≤ percentage < 90` gives warning, anything else gives success. -/
def specPalette (percentage : JSNumber) : Palette :=
  if percentage.ge (JSNumber.ofNat 90) = true then Palette.danger
  else if percentage.ge (JSNumber.ofNat 75) = true ∧ percentage.lt (JSNumber.ofNat 90) = true then
    Palette.warning
  else Palette.success

/-! ## Sample inputs -/

/-- A page holding `value`, with the displays still untouched by the script. -/
def samplePage (value : JSString) (focused : Bool) : Page :=
  { value := value, focused := focused, focusable := true, totalText := .str "0",
    remainingText := .str "",
    fillWidth := .str "", progressText := .str "0%", totalPulse := false,
    remainingColor := "", fillBackground := "", borderColor := "",
    clearLabel := "Clear Text", copyLabel := "Copy Text", notifications := [], nextId := 0,
    timers := [], clipboardWrites := [], console := [] }

/-- The string `"hello"`. -/
def hello : JSString := ⟨[104, 101, 108, 108, 111], by decide⟩

/-- The string `"hello worldXXX"`. -/
def helloWorldXXX : JSString :=
  ⟨[104, 101, 108, 108, 111, 32, 119, 111, 114, 108, 100, 88, 88, 88], by decide⟩

/-- The string `"hello worl"`. -/
def helloWorl : JSString := ⟨[104, 101, 108, 108, 111, 32, 119, 111, 114, 108], by decide⟩

/-- The string `"a"`. -/
def letterA : JSString := ⟨[97], by decide⟩

/-- The string `"   "` (three spaces). -/
def spaces : JSString := ⟨[32, 32, 32], by decide⟩

/-- The string `"  hi "`. -/
def paddedHi : JSString := ⟨[32, 32, 104, 105, 32], by decide⟩

/-! ## Facts about the Number model -/

theorem bitLenAux_zero (fuel : Nat) : bitLenAux fuel 0 = 0 := by
  cases fuel <;> simp [bitLenAux]

theorem bitLenAux_bounds (fuel : Nat) : ∀ n, n ≤ fuel →
    n < 2 ^ bitLenAux fuel n ∧ (n ≠ 0 → 2 ^ (bitLenAux fuel n - 1) ≤ n) := by
  induction fuel with
  | zero =>
    intro n hn
    have : n = 0 := by omega
    subst this
    simp [bitLenAux]
  | succ fuel ih =>
    intro n hn
    by_cases h0 : n = 0
    · subst h0
      simp [bitLenAux]
    · have step : ∀ c : Nat, 0 < c → n / 2 ^ c ≤ fuel →
          (n / 2 ^ c ≠ 0 ∨ c = 1) →
          n < 2 ^ (bitLenAux fuel (n / 2 ^ c) + c) ∧
          2 ^ (bitLenAux fuel (n / 2 ^ c) + c - 1) ≤ n := by
        intro c hc hfuel hcase
        obtain ⟨hlt, hge⟩ := ih (n / 2 ^ c) hfuel
        have hpc : 0 < 2 ^ c := Nat.two_pow_pos c
        refine ⟨?_, ?_⟩
        · rw [Nat.pow_add]
          exact (Nat.div_lt_iff_lt_mul hpc).1 hlt
        · by_cases h1 : n / 2 ^ c = 0
          · have hc1 : c = 1 := by
              rcases hcase with h | h
              · exact absurd h1 h
              · exact h
            subst hc1
            rw [h1, bitLenAux_zero]
            simp
            omega
          · have hb := hge h1
            have hpos : bitLenAux fuel (n / 2 ^ c) ≠ 0 := by
              intro hz
              rw [hz] at hlt
              simp at hlt
              exact h1 hlt
            have he : bitLenAux fuel (n / 2 ^ c) + c - 1 = (bitLenAux fuel (n / 2 ^ c) - 1) + c := by
              omega
            rw [he, Nat.pow_add]
            calc 2 ^ (bitLenAux fuel (n / 2 ^ c) - 1) * 2 ^ c ≤ n / 2 ^ c * 2 ^ c :=
                  Nat.mul_le_mul_right _ hb
              _ ≤ n := Nat.div_mul_le_self n (2 ^ c)
      by_cases hbig : 2 ^ 64 ≤ n
      · have hfuel : n / 2 ^ 64 ≤ fuel := by omega
        have hne : n / 2 ^ 64 ≠ 0 := by omega
        have := step 64 (by decide) hfuel (Or.inl hne)
        simp only [bitLenAux, h0, hbig, if_false, if_true]
        exact ⟨this.1, fun _ => this.2⟩
      · have hfuel : n / 2 ^ 1 ≤ fuel := by omega
        have := step 1 (by decide) hfuel (Or.inr rfl)
        simp only [bitLenAux, h0, hbig, if_false]
        rw [Nat.pow_one] at this
        exact ⟨this.1, fun _ => this.2⟩

theorem lt_pow_bitLen (n : Nat) : n < 2 ^ bitLen n :=
  (bitLenAux_bounds n n (Nat.le_refl n)).1

theorem pow_bitLen_pred_le {n : Nat} (h : n ≠ 0) : 2 ^ (bitLen n - 1) ≤ n :=
  (bitLenAux_bounds n n (Nat.le_refl n)).2 h

theorem bitLen_le {n k : Nat} (h : n < 2 ^ k) : bitLen n ≤ k := by
  by_cases h0 : n = 0
  · subst h0
    simp [bitLen, bitLenAux_zero]
  · have h1 := pow_bitLen_pred_le h0
    have h2 : 2 ^ (bitLen n - 1) < 2 ^ k := Nat.lt_of_le_of_lt h1 h
    have h3 := (Nat.pow_lt_pow_iff_right (by decide : 1 < 2)).1 h2
    omega

theorem roundHalfEven_of_dvd {p q : Nat} (hq : 0 < q) (h : q ∣ p) :
    roundHalfEven p q = p / q := by
  have hr : p % q = 0 := Nat.mod_eq_zero_of_dvd h
  simp [roundHalfEven, hr, hq]

theorem le_roundHalfEven (p q : Nat) : p / q ≤ roundHalfEven p q := by
  unfold roundHalfEven
  simp only
  split_ifs <;> omega

theorem roundHalfEven_le (p q : Nat) : roundHalfEven p q ≤ p / q + 1 := by
  unfold roundHalfEven
  simp only
  split_ifs <;> omega

namespace JSNumber

theorem unit_pos : 0 < unit := Nat.two_pow_pos 1074

/-- Rounding leaves an exactly representable magnitude alone. -/
theorem round_of_exact (s : Bool) {p q : Nat} (hq : 0 < q) (hdvd : q ∣ p)
    (hbits : 2 ^ (bitLen (p / q) - 53) ∣ p / q) (hlt : p / q < overflow) :
    round s p q = fin s (p / q) := by
  have hpos : 0 < q * 2 ^ (bitLen (p / q) - 53) := Nat.mul_pos hq (Nat.two_pow_pos _)
  have hdvd2 : q * 2 ^ (bitLen (p / q) - 53) ∣ p := by
    obtain ⟨c, hc⟩ := hbits
    have hp : p = q * (p / q) := (Nat.mul_div_cancel' hdvd).symm
    exact ⟨c, by rw [Nat.mul_assoc, ← hc]; exact hp⟩
  have hv : roundHalfEven p (q * 2 ^ (bitLen (p / q) - 53)) * 2 ^ (bitLen (p / q) - 53)
      = p / q := by
    rw [roundHalfEven_of_dvd hpos hdvd2, ← Nat.div_div_eq_div_mul]
    exact Nat.div_mul_cancel hbits
  simp only [round, hv]
  rw [if_neg (Nat.not_le.2 hlt)]

/-- Integers of magnitude at most `2^53` are doubles, as magnitudes in units of `2^-1074`. -/
theorem small_int_bits {n : Nat} (h : n ≤ 2 ^ 53) :
    2 ^ (bitLen (n * unit) - 53) ∣ n * unit ∧ n * unit < overflow := by
  have hu : unit = 2 ^ 1074 := rfl
  constructor
  · rcases Nat.lt_or_ge n (2 ^ 53) with hlt | hge
    · have h1 : n * unit < 2 ^ 1127 := by
        rw [hu, show (2:Nat) ^ 1127 = 2 ^ 53 * 2 ^ 1074 by rw [← Nat.pow_add]]
        exact Nat.mul_lt_mul_of_pos_right hlt (Nat.two_pow_pos _)
      have h2 := bitLen_le h1
      have h3 : 2 ^ (bitLen (n * unit) - 53) ∣ 2 ^ 1074 := Nat.pow_dvd_pow 2 (by omega)
      exact Dvd.dvd.mul_left (hu ▸ h3) n
    · have hn : n = 2 ^ 53 := Nat.le_antisymm h hge
      have h1 : n * unit = 2 ^ 1127 := by rw [hn, hu, ← Nat.pow_add]
      have h2 : bitLen (n * unit) ≤ 1128 := bitLen_le (by rw [h1]; exact Nat.pow_lt_pow_right (by decide) (by decide))
      rw [h1] at h2 ⊢
      exact Nat.pow_dvd_pow 2 (by omega)
  · have : n * unit ≤ 2 ^ 53 * 2 ^ 1074 := by
      rw [hu]; exact Nat.mul_le_mul_right _ h
    have h2 : (2:Nat) ^ 53 * 2 ^ 1074 < overflow := by
      rw [← Nat.pow_add]; exact Nat.pow_lt_pow_right (by decide) (by decide)
    omega

theorem round_small_int (s : Bool) {n : Nat} (h : n ≤ 2 ^ 53) :
    round s (n * unit) 1 = fin s (n * unit) := by
  have hb := small_int_bits h
  have := round_of_exact s (p := n * unit) (q := 1) (by decide) (one_dvd _)
    (by rw [Nat.div_one]; exact hb.1) (by rw [Nat.div_one]; exact hb.2)
  rwa [Nat.div_one] at this

theorem ofInt_eq_exact {z : Int} (h : z.natAbs ≤ 2 ^ 53) : ofInt z = exact z :=
  round_small_int _ h

theorem exact_natCast (n : Nat) : exact (n : Int) = ofNat n := by
  simp [exact, ofNat]

/-- The magnitude produced by rounding keeps at most 53 significant bits. -/
theorem round_mag_bits (p q : Nat) :
    let t := bitLen (p / q) - 53
    let v := roundHalfEven p (q * 2 ^ t) * 2 ^ t
    v % 2 ^ (bitLen v - 53) = 0 := by
  intro t v
  have hf : p / q < 2 ^ (53 + t) :=
    Nat.lt_of_lt_of_le (lt_pow_bitLen (p / q)) (Nat.pow_le_pow_right (by decide) (by omega))
  have hk0 : p / (q * 2 ^ t) < 2 ^ 53 := by
    rw [← Nat.div_div_eq_div_mul]
    apply (Nat.div_lt_iff_lt_mul (Nat.two_pow_pos t)).2
    rwa [← Nat.pow_add]
  have hk : roundHalfEven p (q * 2 ^ t) ≤ 2 ^ 53 :=
    Nat.le_trans (roundHalfEven_le _ _) hk0
  apply Nat.mod_eq_zero_of_dvd
  rcases Nat.lt_or_ge (roundHalfEven p (q * 2 ^ t)) (2 ^ 53) with hlt | hge
  · have hv : v < 2 ^ (53 + t) := by
      rw [Nat.pow_add]
      exact Nat.mul_lt_mul_of_pos_right hlt (Nat.two_pow_pos t)
    have hb := bitLen_le hv
    exact Dvd.dvd.mul_left (Nat.pow_dvd_pow 2 (by omega)) _
  · have hkeq : roundHalfEven p (q * 2 ^ t) = 2 ^ 53 := Nat.le_antisymm hk hge
    have hv : v = 2 ^ (53 + t) := by
      show roundHalfEven p (q * 2 ^ t) * 2 ^ t = _
      rw [hkeq, Nat.pow_add]
    have hb : bitLen v ≤ 53 + t + 1 :=
      bitLen_le (by rw [hv]; exact Nat.pow_lt_pow_right (by decide) (by omega))
    rw [hv] at hb ⊢
    exact Nat.pow_dvd_pow 2 (by omega)

/-- Rounding always yields a genuine double. -/
theorem isDouble_round (s : Bool) (p q : Nat) : (round s p q).isDouble = true := by
  unfold round
  simp only
  split_ifs with h
  · rfl
  · simp only [isDouble, Bool.and_eq_true, decide_eq_true_eq]
    exact ⟨Nat.not_le.1 h, round_mag_bits p q⟩

/-- Rounding a magnitude that is already a double returns it. -/
theorem round_of_isDouble {s : Bool} {m : Nat} (h : (fin s m).isDouble = true) (s' : Bool) :
    round s' m 1 = fin s' m := by
  simp only [isDouble, Bool.and_eq_true, decide_eq_true_eq] at h
  have := round_of_exact s' (p := m) (q := 1) (by decide) (one_dvd _)
    (by rw [Nat.div_one]; exact Nat.dvd_of_mod_eq_zero h.2) (by rw [Nat.div_one]; exact h.1)
  rwa [Nat.div_one] at this

/-- Rounding never falls below a power of two that the exact value reaches. -/
theorem pow_le_round_mag {p q j : Nat} (hj : 52 ≤ j) (h : 2 ^ j ≤ p / q) :
    2 ^ j ≤ roundHalfEven p (q * 2 ^ (bitLen (p / q) - 53)) * 2 ^ (bitLen (p / q) - 53) := by
  have hne : p / q ≠ 0 := by
    have := Nat.two_pow_pos j
    omega
  have hb : j < bitLen (p / q) :=
    (Nat.pow_lt_pow_iff_right (by decide : 1 < 2)).1
      (Nat.lt_of_le_of_lt h (lt_pow_bitLen (p / q)))
  have hlow := pow_bitLen_pred_le hne
  have hsplit : 2 ^ (bitLen (p / q) - 1) = 2 ^ 52 * 2 ^ (bitLen (p / q) - 53) := by
    rw [← Nat.pow_add]
    congr 1
    omega
  have hk : 2 ^ 52 ≤ p / (q * 2 ^ (bitLen (p / q) - 53)) := by
    rw [← Nat.div_div_eq_div_mul]
    apply (Nat.le_div_iff_mul_le (Nat.two_pow_pos _)).2
    rw [← hsplit]
    exact hlow
  calc 2 ^ j ≤ 2 ^ (bitLen (p / q) - 1) := Nat.pow_le_pow_right (by decide) (by omega)
    _ = 2 ^ 52 * 2 ^ (bitLen (p / q) - 53) := hsplit
    _ ≤ roundHalfEven p (q * 2 ^ (bitLen (p / q) - 53)) * 2 ^ (bitLen (p / q) - 53) :=
        Nat.mul_le_mul_right _ (Nat.le_trans hk (le_roundHalfEven _ _))

/-- The shape of ToNumber on a non-negative integer: the integer itself up to `2^53`, and
beyond that `+∞` or a finite value of at least `2^53`. -/
theorem ofInt_nonneg_cases {z : Int} (hz : 0 ≤ z) :
    (z ≤ 2 ^ 53 ∧ ofInt z = fin false (z.toNat * unit)) ∨
    (2 ^ 53 < z ∧ (ofInt z = inf false ∨ ∃ v, ofInt z = fin false v ∧ 2 ^ 53 * unit ≤ v)) := by
  obtain ⟨n, rfl⟩ := Int.eq_ofNat_of_zero_le hz
  have hneg : decide ((n : Int) < 0) = false := by simp
  rcases Nat.lt_or_ge (2 ^ 53) n with hbig | hsmall
  · right
    refine ⟨by exact_mod_cast hbig, ?_⟩
    have hp : 2 ^ 1127 ≤ n * unit / 1 := by
      rw [Nat.div_one, show (2:Nat) ^ 1127 = 2 ^ 53 * unit by
        rw [show unit = 2 ^ 1074 from rfl, ← Nat.pow_add]]
      exact Nat.mul_le_mul_right _ (Nat.le_of_lt hbig)
    have hv := pow_le_round_mag (p := n * unit) (q := 1) (j := 1127) (by decide) hp
    simp only [ofInt, hneg, Int.natAbs_ofNat, round]
    split_ifs with hov
    · exact Or.inl rfl
    · refine Or.inr ⟨_, rfl, ?_⟩
      rw [show (2:Nat) ^ 53 * unit = 2 ^ 1127 by
        rw [show unit = 2 ^ 1074 from rfl, ← Nat.pow_add]]
      exact hv
  · left
    refine ⟨by exact_mod_cast hsmall, ?_⟩
    have := ofInt_eq_exact (z := (n : Int)) (by simpa using hsmall)
    rw [this]
    simp [exact]

theorem ge_ofNat_of_ge_ofNat {a b : Nat} (hab : b ≤ a) {p : JSNumber}
    (h : p.ge (ofNat a) = true) : p.ge (ofNat b) = true := by
  have hu := unit_pos
  have hmul : b * unit ≤ a * unit := Nat.mul_le_mul_right _ hab
  cases p with
  | nan => simp [ge] at h
  | inf s => simpa [ge, lt, ofNat] using h
  | fin s m =>
    simp only [ge, lt, ofNat, signed, Bool.not_eq_true', decide_eq_false_iff_not] at h ⊢
    cases s <;> simp at h ⊢ <;> omega

theorem lt_ofNat_of_not_ge {a b : Nat} {p : JSNumber}
    (h1 : p.ge (ofNat a) = true) (h2 : ¬ p.ge (ofNat b) = true) : p.lt (ofNat b) = true := by
  cases p with
  | nan => simp [ge] at h1
  | inf s => simpa [ge, lt, ofNat] using h2
  | fin s m => simpa [ge, ofNat] using h2

theorem ge_zero_fin (v : Nat) : (fin false v).ge (ofNat 0) = true := by
  simp only [ge, lt, ofNat, signed, Bool.false_eq_true, if_false, Bool.not_eq_true',
    decide_eq_false_iff_not]
  omega

theorem ge_zero_ofNat (n : Nat) : (ofNat n).ge (ofNat 0) = true :=
  ge_zero_fin _

theorem ge_zero_round_false (p q : Nat) : (round false p q).ge (ofNat 0) = true := by
  unfold round
  simp only
  split_ifs
  · rfl
  · exact ge_zero_fin _

/-- Subtracting the positive zero from a double gives it back. -/
theorem sub_zero_of_isDouble {x : JSNumber} (h : x.isDouble = true) : x.sub (ofNat 0) = x := by
  cases x with
  | nan => rfl
  | inf a => rfl
  | fin s m =>
    have hr := round_of_isDouble h
    cases s
    · by_cases hm : m = 0
      · simp [sub, add, neg, ofNat, hm]
      · have hpos : 0 < m := Nat.pos_of_ne_zero hm
        simp [sub, add, neg, ofNat, hm, hpos, hr]
    · simp [sub, add, neg, ofNat, hr]

/-- Subtraction of a length from a configured maximum that is a safe integer is exact. -/
theorem sub_ofNat_of_le {m n : Nat} (hm : m ≤ 2 ^ 53) (hn : n ≤ m) :
    (fin false (m * unit)).sub (ofNat n) = ofNat (m - n) := by
  have hu := unit_pos
  rcases Nat.eq_or_lt_of_le hn with heq | hlt
  · subst heq
    simp [sub, add, neg, ofNat]
  · have h1 : n * unit < m * unit := Nat.mul_lt_mul_of_pos_right hlt hu
    have h2 : m * unit - n * unit = (m - n) * unit := (Nat.sub_mul m n unit).symm
    have h3 : m * unit ≠ n * unit := Nat.ne_of_gt h1
    have h4 := round_small_int false (n := m - n) (by omega)
    simp only [sub, add, neg, ofNat, Bool.not_false, Bool.false_eq_true, if_false, h3, h1,
      if_true, h2, h4]

/-- A length that does not exceed a finite non-negative maximum leaves a non-negative
difference. -/
theorem sub_ofNat_ge_zero {v n : Nat} (h : n * unit ≤ v) :
    ((JSNumber.fin false v).sub (JSNumber.ofNat n)).ge (JSNumber.ofNat 0) = true := by
  simp only [JSNumber.sub, JSNumber.neg, JSNumber.ofNat, JSNumber.add, Bool.not_false,
    Bool.false_eq_true, if_false]
  split_ifs with h1 h2
  · exact ge_zero_fin 0
  · exact JSNumber.ge_zero_round_false _ _
  · omega

/-- A non-zero safe integer divided by itself is exactly `1`. -/
theorem div_self_ofNat {n : Nat} (hn : 0 < n) : (ofNat n).div (ofNat n) = ofNat 1 := by
  have hu := unit_pos
  have hq : 0 < n * unit := Nat.mul_pos hn hu
  have hdiv : n * unit * unit / (n * unit) = unit := Nat.mul_div_cancel_left unit hq
  have hb := small_int_bits (n := 1) (by decide)
  rw [Nat.one_mul] at hb
  have := round_of_exact false (p := n * unit * unit) (q := n * unit) hq (Dvd.intro _ rfl)
    (by rw [hdiv]; exact hb.1) (by rw [hdiv]; exact hb.2)
  simp only [div, ofNat, Nat.ne_of_gt hq, if_false, Bool.xor_false, this, hdiv, Nat.one_mul]

/-- Multiplying `1` by a safe integer is exact. -/
theorem one_mul_ofNat {n : Nat} (hn : n ≤ 2 ^ 53) : (ofNat 1).mul (ofNat n) = ofNat n := by
  have hu := unit_pos
  have hdiv : 1 * unit * (n * unit) / unit = n * unit := by
    rw [Nat.one_mul]
    exact Nat.mul_div_cancel_left _ hu
  have hb := small_int_bits hn
  have := round_of_exact false (p := 1 * unit * (n * unit)) (q := unit) hu
    (by rw [Nat.one_mul]; exact Dvd.intro _ rfl)
    (by rw [hdiv]; exact hb.1) (by rw [hdiv]; exact hb.2)
  simp only [mul, ofNat, Bool.xor_false, this, hdiv]

end JSNumber

/-! ## Facts about the handlers -/

theorem updateVisualState_value (c p : JSNumber) (s : Page) :
    (updateVisualState c p s).value = s.value ∧
    (updateVisualState c p s).focused = s.focused ∧
    (updateVisualState c p s).totalText = s.totalText ∧
    (updateVisualState c p s).remainingText = s.remainingText ∧
    (updateVisualState c p s).fillWidth = s.fillWidth ∧
    (updateVisualState c p s).progressText = s.progressText ∧
    (updateVisualState c p s).timers = s.timers ∧
    (updateVisualState c p s).clearLabel = s.clearLabel := by
  by_cases h90 : p.ge (JSNumber.ofNat 90) = true <;>
  by_cases h75 : p.ge (JSNumber.ofNat 75) = true <;>
  by_cases h100 : p.ge (JSNumber.ofNat 100) = true <;>
  cases hf : s.focused <;>
  simp [updateVisualState, h90, h75, h100, hf]

/-- The border rule of `updateVisualState`, as one conditional. -/
theorem updateVisualState_borderColor (currentLength percentage : JSNumber) (s : Page) :
    (updateVisualState currentLength percentage s).borderColor =
      (if percentage.ge (JSNumber.ofNat 100) = true then "#e74c3c"
       else if s.focused = true then "#3498db" else "#e0e0e0") := by
  unfold updateVisualState
  split_ifs <;> simp_all

/-- The fields `updateCounter` leaves alone or sets from the buffer. -/
theorem updateCounter_fields (MAX_LENGTH : JSNumber) (s : Page) :
    (updateCounter MAX_LENGTH s).value = s.value ∧
    (updateCounter MAX_LENGTH s).focused = s.focused ∧
    (updateCounter MAX_LENGTH s).totalText = .num s.value.length ∧
    (updateCounter MAX_LENGTH s).remainingText = .num (MAX_LENGTH.sub s.value.length) ∧
    (updateCounter MAX_LENGTH s).fillWidth =
      .percent ((s.value.length.div MAX_LENGTH).mul (JSNumber.ofNat 100)) ∧
    (updateCounter MAX_LENGTH s).progressText =
      .percent ((s.value.length.div MAX_LENGTH).mul (JSNumber.ofNat 100)).mathRound ∧
    (updateCounter MAX_LENGTH s).timers = s.timers ++ [(300, Callback.removePulse)] ∧
    (updateCounter MAX_LENGTH s).clearLabel = s.clearLabel := by
  simp only [updateCounter, updateVisualState_value, animateCounter, setTimeout]
  simp

theorem updateCounter_value (MAX_LENGTH : JSNumber) (s : Page) :
    (updateCounter MAX_LENGTH s).value = s.value :=
  (updateCounter_fields MAX_LENGTH s).1

/-- The colours `updateCounter` sets depend on the buffer and the focus only. -/
theorem updateCounter_colours (MAX_LENGTH : JSNumber) (s t : Page)
    (hv : t.value = s.value) (hf : t.focused = s.focused) :
    (updateCounter MAX_LENGTH t).remainingColor = (updateCounter MAX_LENGTH s).remainingColor ∧
    (updateCounter MAX_LENGTH t).fillBackground = (updateCounter MAX_LENGTH s).fillBackground ∧
    (updateCounter MAX_LENGTH t).borderColor = (updateCounter MAX_LENGTH s).borderColor := by
  generalize hp : (s.value.length.div MAX_LENGTH).mul (JSNumber.ofNat 100) = p
  by_cases h90 : p.ge (JSNumber.ofNat 90) = true <;>
  by_cases h75 : p.ge (JSNumber.ofNat 75) = true <;>
  by_cases h100 : p.ge (JSNumber.ofNat 100) = true <;>
  cases hfoc : s.focused <;>
  simp [updateCounter, updateVisualState, animateCounter, setTimeout, hv, hf, hp, h90, h75,
    h100, hfoc]

theorem updateCounter_remainingText_self (MAX_LENGTH : JSNumber) (t : Page) :
    (updateCounter MAX_LENGTH t).remainingText =
      .num (MAX_LENGTH.sub (updateCounter MAX_LENGTH t).value.length) := by
  rw [updateCounter_value]
  exact (updateCounter_fields MAX_LENGTH t).2.2.2.1

theorem pasteCorrection_remainingText (MAX_LENGTH : JSNumber) (s : Page) :
    (pasteCorrection MAX_LENGTH s).remainingText =
      .num (MAX_LENGTH.sub (pasteCorrection MAX_LENGTH s).value.length) := by
  simp only [pasteCorrection]
  exact updateCounter_remainingText_self _ _

/-- The correction when the configured maximum is a safe integer below the buffer length. -/
theorem pasteCorrection_value_of_lt {m : Nat} (s : Page) (h : m < s.value.units.length) :
    (pasteCorrection (JSNumber.fin false (m * unit)) s).value.units = s.value.units.take m := by
  have hu := JSNumber.unit_pos
  have h1 : m * unit < s.value.units.length * unit := Nat.mul_lt_mul_of_pos_right h hu
  have hgt : s.value.length.gt (JSNumber.fin false (m * unit)) = true := by
    simp only [JSNumber.gt, JSNumber.lt, JSString.length, JSNumber.ofNat, JSNumber.signed,
      Bool.false_eq_true, if_false, decide_eq_true_eq]
    exact_mod_cast h1
  have hmin : min m s.value.units.length = m := Nat.min_eq_left (Nat.le_of_lt h)
  simp only [pasteCorrection, hgt, if_true, updateCounter_value, JSString.substring,
    JSNumber.clampIndex, JSNumber.ofNat, Bool.false_eq_true, if_false, Nat.zero_mul,
    Nat.zero_div, Nat.mul_div_cancel _ hu, hmin, Nat.zero_min, Nat.zero_max, Nat.max_zero,
    Nat.min_zero, List.drop_zero]

/-- The buffer length after the correction, for a finite non-negative maximum `v` (in units
of `2^-1074`): it does not exceed the maximum, nor the length before. -/
theorem pasteCorrection_length_fin (v : Nat) (s : Page) :
    (pasteCorrection (JSNumber.fin false v) s).value.units.length * unit ≤ v ∧
    (pasteCorrection (JSNumber.fin false v) s).value.units.length ≤ s.value.units.length := by
  have hu := JSNumber.unit_pos
  by_cases hgt : s.value.length.gt (JSNumber.fin false v) = true
  · have hlen : (pasteCorrection (JSNumber.fin false v) s).value.units.length
        = min (v / unit) s.value.units.length := by
      simp only [pasteCorrection, hgt, if_true, updateCounter_value, JSString.substring,
        JSNumber.clampIndex, JSNumber.ofNat, Bool.false_eq_true, if_false, Nat.zero_mul,
        Nat.zero_div, Nat.zero_min, Nat.zero_max, List.drop_zero, List.length_take]
      omega
    rw [hlen]
    refine ⟨?_, Nat.min_le_right _ _⟩
    calc min (v / unit) s.value.units.length * unit ≤ v / unit * unit :=
          Nat.mul_le_mul_right _ (Nat.min_le_left _ _)
      _ ≤ v := Nat.div_mul_le_self v unit
  · have hval : (pasteCorrection (JSNumber.fin false v) s).value = s.value := by
      simp only [pasteCorrection, hgt, if_false, updateCounter_value, Bool.false_eq_true]
    rw [hval]
    refine ⟨?_, Nat.le_refl _⟩
    simp only [JSNumber.gt, JSNumber.lt, JSString.length, JSNumber.ofNat, JSNumber.signed,
      Bool.false_eq_true, if_false, decide_eq_true_eq] at hgt
    have : ¬ (v < s.value.units.length * unit) := by exact_mod_cast hgt
    omega

/-- The remaining count shown after the correction is non-negative when the maximum is a
finite non-negative Number. -/
theorem pasteCorrection_remaining_fin (v : Nat) (s : Page) :
    ∃ r, (pasteCorrection (JSNumber.fin false v) s).remainingText = .num r ∧
      r.ge (JSNumber.ofNat 0) = true :=
  ⟨_, pasteCorrection_remainingText _ s,
    JSNumber.sub_ofNat_ge_zero (pasteCorrection_length_fin v s).1⟩

/-- The call `focus()` on a field that can take focus or already has it. -/
theorem focus_eq (s : Page) (h : s.focusable = true ∨ s.focused = true) :
    focus s = { s with focused := true } := by
  unfold focus
  cases s with
  | mk value focused focusable =>
    rcases h with h | h
    · simp only at h
      simp [h]
    · simp only at h
      subst h
      split_ifs <;> rfl

/-- What `clearText` leaves behind on a field that can take focus or already has it. -/
theorem clearText_fields (MAX_LENGTH : JSNumber) (t : Page)
    (h : t.focusable = true ∨ t.focused = true) :
    (clearText MAX_LENGTH t).value = JSString.empty ∧
    (clearText MAX_LENGTH t).focused = true ∧
    (clearText MAX_LENGTH t).displays =
      (updateCounter MAX_LENGTH { t with value := JSString.empty, focused := true }).displays ∧
    (clearText MAX_LENGTH t).clearLabel = "Cleared!" ∧
    (clearText MAX_LENGTH t).timers =
      t.timers ++ [(300, Callback.removePulse), (1000, Callback.restoreClearLabel)] := by
  have hfo : focus { t with value := JSString.empty } =
      { t with value := JSString.empty, focused := true } :=
    focus_eq { t with value := JSString.empty } h
  have hf := updateCounter_fields MAX_LENGTH { t with value := JSString.empty, focused := true }
  refine ⟨?_, ?_, ?_, ?_, ?_⟩
  · simpa only [clearText, hfo, setTimeout] using hf.1
  · simpa only [clearText, hfo, setTimeout] using hf.2.1
  · simp only [clearText, hfo, setTimeout, Page.displays]
  · simp only [clearText, hfo, setTimeout]
  · simp only [clearText, hfo, setTimeout, hf.2.2.2.2.2.2.1, List.append_assoc,
      List.singleton_append]

/-! ## The properties of the specification -/

/-- C1 (amended to safe integers): when the configured maximum is an integer of at most
`2^53` and the buffer is no longer than it, `updateCounter` shows the buffer length as the
count and exactly `MaxLength - len(buffer)`, a non-negative number, as the remaining count.
With a maximum of 10 and the buffer `"hello"` the count is 5, the remaining count 5, the
percentage 50 and the palette the success one. -/
theorem updateCounter_remaining (M : Int) (s : Page)
    (hlen : (s.value.units.length : Int) ≤ M) (hM : M ≤ 2 ^ 53) :
    ((updateCounter (JSNumber.ofInt M) s).totalText =
        .num (JSNumber.exact s.value.units.length) ∧
      (updateCounter (JSNumber.ofInt M) s).remainingText =
        .num (JSNumber.exact (M - s.value.units.length)) ∧
      0 ≤ M - s.value.units.length ∧
      (JSNumber.exact (M - s.value.units.length)).ge (JSNumber.ofNat 0) = true) ∧
    ((updateCounter (JSNumber.ofInt 10) (samplePage hello false)).totalText =
        .num (JSNumber.ofNat 5) ∧
      (updateCounter (JSNumber.ofInt 10) (samplePage hello false)).remainingText =
        .num (JSNumber.ofNat 5) ∧
      (updateCounter (JSNumber.ofInt 10) (samplePage hello false)).fillWidth =
        .percent (JSNumber.ofNat 50) ∧
      (updateCounter (JSNumber.ofInt 10) (samplePage hello false)).progressText =
        .percent (JSNumber.ofNat 50) ∧
      (updateCounter (JSNumber.ofInt 10) (samplePage hello false)).remainingColor =
        Palette.success.color ∧
      (updateCounter (JSNumber.ofInt 10) (samplePage hello false)).fillBackground =
        Palette.success.gradient) := by
  refine ⟨?_, by decide⟩
  have hf := updateCounter_fields (JSNumber.ofInt M) s
  obtain ⟨m, rfl⟩ := Int.eq_ofNat_of_zero_le (Int.le_trans (Int.ofNat_nonneg _) hlen)
  have hm : m ≤ 2 ^ 53 := by exact_mod_cast hM
  have hn : s.value.units.length ≤ m := by exact_mod_cast hlen
  have hof : JSNumber.ofInt (m : Int) = JSNumber.fin false (m * unit) := by
    rw [JSNumber.ofInt_eq_exact (by simpa using hm)]
    simp [JSNumber.exact]
  have hdiff : (m : Int) - (s.value.units.length : Int) = ((m - s.value.units.length : Nat) : Int) := by
    omega
  refine ⟨?_, ?_, by omega, ?_⟩
  · rw [hf.2.2.1, JSNumber.exact_natCast]
    rfl
  · rw [hf.2.2.2.1, hdiff, JSNumber.exact_natCast, hof]
    exact congrArg Text.num (JSNumber.sub_ofNat_of_le hm hn)
  · rw [hdiff, JSNumber.exact_natCast]
    exact JSNumber.ge_zero_ofNat _

/-- The witness of C1: a maximum of 10 and the buffer `"hello"`. -/
theorem updateCounter_remaining_witness :
    ((samplePage hello false).value.units.length : Int) ≤ 10 ∧
    (10 : Int) ≤ 2 ^ 53 ∧
    (updateCounter (JSNumber.ofInt 10) (samplePage hello false)).totalText =
      .num (JSNumber.exact (samplePage hello false).value.units.length) ∧
    (updateCounter (JSNumber.ofInt 10) (samplePage hello false)).remainingText =
      .num (JSNumber.exact (10 - (samplePage hello false).value.units.length)) ∧
    (0 : Int) ≤ 10 - (samplePage hello false).value.units.length ∧
    (JSNumber.exact (10 - (samplePage hello false).value.units.length)).ge
      (JSNumber.ofNat 0) = true :=
  ⟨by decide, by decide,
    (updateCounter_remaining 10 (samplePage hello false) (by decide) (by decide)).1⟩

/-- The counterexample to C1 as stated: with a maximum of `2^54` and the buffer `"a"` the
remaining count shown is `2^54`, not `2^54 - 1`. -/
theorem updateCounter_remaining_counterexample :
    ((samplePage letterA false).value.units.length : Int) ≤ 2 ^ 54 ∧
    (updateCounter (JSNumber.ofInt (2 ^ 54)) (samplePage letterA false)).remainingText =
      .num (JSNumber.exact (2 ^ 54)) ∧
    (updateCounter (JSNumber.ofInt (2 ^ 54)) (samplePage letterA false)).remainingText ≠
      .num (JSNumber.exact (2 ^ 54 - (samplePage letterA false).value.units.length)) := by
  decide

/-- C2 (amended to a non-negative maximum): when the configured maximum is a non-negative
integer and the buffer is longer than it, the deferred correction of `handlePaste` leaves
exactly the first `MaxLength` code units of the buffer.  `handlePaste` itself only schedules
that correction.  With a maximum of 10, the pasted buffer `"hello worldXXX"` becomes
`"hello worl"`, the percentage 100 and the border red. -/
theorem pasteCorrection_truncates (M : Int) (s : Page) (hM : 0 ≤ M)
    (hlong : M < (s.value.units.length : Int)) :
    ((pasteCorrection (JSNumber.ofInt M) s).value.units = s.value.units.take M.toNat ∧
      ((pasteCorrection (JSNumber.ofInt M) s).value.units.length : Int) = M ∧
      (handlePaste s).value = s.value ∧
      (handlePaste s).timers = s.timers ++ [(0, Callback.pasteCorrection)] ∧
      runCallback (JSNumber.ofInt M) .pasteCorrection s = pasteCorrection (JSNumber.ofInt M) s) ∧
    ((pasteCorrection (JSNumber.ofInt 10) (samplePage helloWorldXXX true)).value = helloWorl ∧
      (pasteCorrection (JSNumber.ofInt 10) (samplePage helloWorldXXX true)).fillWidth =
        .percent (JSNumber.ofNat 100) ∧
      (pasteCorrection (JSNumber.ofInt 10) (samplePage helloWorldXXX true)).borderColor =
        "#e74c3c") := by
  refine ⟨?_, by decide⟩
  obtain ⟨m, rfl⟩ := Int.eq_ofNat_of_zero_le hM
  have hlt : m < s.value.units.length := by exact_mod_cast hlong
  have hb := s.value.bound
  have hm : m ≤ 2 ^ 53 := by omega
  have hof : JSNumber.ofInt (m : Int) = JSNumber.fin false (m * unit) := by
    rw [JSNumber.ofInt_eq_exact (by simpa using hm)]
    simp [JSNumber.exact]
  have hval := pasteCorrection_value_of_lt s hlt
  rw [hof]
  refine ⟨by simpa using hval, ?_, rfl, rfl, rfl⟩
  rw [hval, List.length_take, Nat.min_eq_left (Nat.le_of_lt hlt)]

/-- The witness of C2: a maximum of 10 and the pasted buffer `"hello worldXXX"`. -/
theorem pasteCorrection_truncates_witness :
    (0 : Int) ≤ 10 ∧
    (10 : Int) < ((samplePage helloWorldXXX true).value.units.length : Int) ∧
    (pasteCorrection (JSNumber.ofInt 10) (samplePage helloWorldXXX true)).value.units =
      (samplePage helloWorldXXX true).value.units.take (10 : Int).toNat ∧
    ((pasteCorrection (JSNumber.ofInt 10) (samplePage helloWorldXXX true)).value.units.length
      : Int) = 10 :=
  ⟨by decide, by decide,
    (pasteCorrection_truncates 10 (samplePage helloWorldXXX true) (by decide) (by decide)).1.1,
    (pasteCorrection_truncates 10 (samplePage helloWorldXXX true) (by decide)
      (by decide)).1.2.1⟩

/-- The counterexample to C2 as stated: with a maximum of `-1` the buffer `"a"` is longer
than the maximum, and the correction leaves the empty buffer, whose length is not `-1`. -/
theorem pasteCorrection_truncates_counterexample :
    (-1 : Int) < ((samplePage letterA false).value.units.length : Int) ∧
    (pasteCorrection (JSNumber.ofInt (-1)) (samplePage letterA false)).value.units = [] ∧
    ((pasteCorrection (JSNumber.ofInt (-1)) (samplePage letterA false)).value.units.length
      : Int) ≠ -1 := by
  decide

/-- C3 (amended to a positive maximum): when the configured maximum is a positive integer
and the buffer has exactly that length, `updateCounter` computes a percentage of exactly
100, shown as the width `100%` and the label `100%`, and sets the border to red whether or
not the field has focus. -/
theorem updateCounter_full (M : Int) (s : Page) (hpos : 0 < M)
    (hlen : (s.value.units.length : Int) = M) :
    (updateCounter (JSNumber.ofInt M) s).fillWidth = .percent (JSNumber.ofNat 100) ∧
    (updateCounter (JSNumber.ofInt M) s).progressText = .percent (JSNumber.ofNat 100) ∧
    (∀ f : Bool,
      (updateCounter (JSNumber.ofInt M) { s with focused := f }).borderColor = "#e74c3c") := by
  subst hlen
  have hb := s.value.bound
  have hn : 0 < s.value.units.length := by exact_mod_cast hpos
  have hof : JSNumber.ofInt (s.value.units.length : Int) = JSNumber.ofNat s.value.units.length := by
    rw [JSNumber.ofInt_eq_exact (by simp; omega), JSNumber.exact_natCast]
  have hp : (s.value.length.div (JSNumber.ofNat s.value.units.length)).mul (JSNumber.ofNat 100)
      = JSNumber.ofNat 100 := by
    rw [JSString.length, JSNumber.div_self_ofNat hn, JSNumber.one_mul_ofNat (by decide)]
  have hround : (JSNumber.ofNat 100).mathRound = JSNumber.ofNat 100 := by decide
  have hge : (JSNumber.ofNat 100).ge (JSNumber.ofNat 100) = true := by decide
  rw [hof]
  refine ⟨?_, ?_, ?_⟩
  · rw [(updateCounter_fields _ s).2.2.2.2.1, hp]
  · rw [(updateCounter_fields _ s).2.2.2.2.2.1, hp, hround]
  · intro f
    simp only [updateCounter]
    show (updateVisualState _ ((s.value.length.div (JSNumber.ofNat s.value.units.length)).mul
      (JSNumber.ofNat 100)) _).borderColor = _
    rw [hp, updateVisualState_borderColor, if_pos hge]

/-- The witness of C3: a maximum of 5 and the buffer `"hello"`. -/
theorem updateCounter_full_witness :
    (0 : Int) < 5 ∧ ((samplePage hello false).value.units.length : Int) = 5 ∧
    (updateCounter (JSNumber.ofInt 5) (samplePage hello false)).fillWidth =
      .percent (JSNumber.ofNat 100) ∧
    (updateCounter (JSNumber.ofInt 5) (samplePage hello false)).progressText =
      .percent (JSNumber.ofNat 100) ∧
    (∀ f : Bool,
      (updateCounter (JSNumber.ofInt 5) { samplePage hello false with focused := f }).borderColor
        = "#e74c3c") :=
  ⟨by decide, by decide, updateCounter_full 5 (samplePage hello false) (by decide) (by decide)⟩

/-- The counterexample to C3 as stated: with a maximum of `0` the empty buffer has exactly
the maximum length, yet the percentage is NaN and the border of the unfocused field is the
neutral colour. -/
theorem updateCounter_full_counterexample :
    ((samplePage JSString.empty false).value.units.length : Int) = 0 ∧
    (updateCounter (JSNumber.ofInt 0) (samplePage JSString.empty false)).fillWidth =
      .percent JSNumber.nan ∧
    (updateCounter (JSNumber.ofInt 0) (samplePage JSString.empty false)).fillWidth ≠
      .percent (JSNumber.ofNat 100) ∧
    (updateCounter (JSNumber.ofInt 0) (samplePage JSString.empty false)).borderColor =
      "#e0e0e0" := by
  decide

/-- C4: for every percentage, `updateVisualState` takes the remaining-count colour and the
fill gradient from one and the same palette, the one the specification names: danger from 90
up, warning from 75 up to 90, success otherwise (NaN included). -/
theorem updateVisualState_palette (currentLength percentage : JSNumber) (s : Page) :
    (updateVisualState currentLength percentage s).remainingColor =
        (specPalette percentage).color ∧
    (updateVisualState currentLength percentage s).fillBackground =
        (specPalette percentage).gradient ∧
    (specPalette percentage = Palette.danger ∨ specPalette percentage = Palette.warning ∨
      specPalette percentage = Palette.success) := by
  have hpal : specPalette percentage = Palette.danger ∨
      specPalette percentage = Palette.warning ∨ specPalette percentage = Palette.success := by
    unfold specPalette
    split_ifs
    · exact Or.inl rfl
    · exact Or.inr (Or.inl rfl)
    · exact Or.inr (Or.inr rfl)
  refine ⟨?_, ?_, hpal⟩
  all_goals
    unfold updateVisualState specPalette
    by_cases h90 : percentage.ge (JSNumber.ofNat 90) = true
    · simp only [h90, if_true]
      split_ifs <;> rfl
    · by_cases h75 : percentage.ge (JSNumber.ofNat 75) = true
      · have hlt := JSNumber.lt_ofNat_of_not_ge h75 h90
        simp only [h90, h75, hlt, and_self, if_true, if_false, Bool.false_eq_true]
        split_ifs <;> rfl
      · simp only [h90, h75, false_and, if_false, Bool.false_eq_true]
        split_ifs <;> rfl

/-- C5: when the buffer is empty after trimming, `copyText` makes no clipboard write, adds
exactly one notification, an error one reading "No text to copy!", and leaves the label of
the copy button alone; the handler ends normally. -/
theorem copyText_empty (clipboard : JSString → Except Fault Unit) (s : Page)
    (h : s.value.trim.units = []) :
    ∃ s', copyText clipboard s = .ok s' ∧
      s'.clipboardWrites = s.clipboardWrites ∧
      s'.notifications = s.notifications ++
        [{ id := s.nextId, className := "notification error",
           textContent := "No text to copy!", transform := "translateX(100%)",
           backgroundColor := "#e74c3c" }] ∧
      s'.copyLabel = s.copyLabel ∧
      s'.value = s.value := by
  have ht : s.value.trim.truthy = false := by simp [JSString.truthy, h]
  refine ⟨showNotification "No text to copy!" "error" s, ?_, rfl, ?_, rfl, rfl⟩
  · simp [copyText, copyTextStart, ht]
  · simp [showNotification, setTimeout]

/-- The witness of C5: the buffer of three spaces, against a clipboard that would accept
any write. -/
theorem copyText_empty_witness :
    spaces.trim.units = [] ∧
    ∃ s', copyText (fun _ => .ok ()) (samplePage spaces true) = .ok s' ∧
      s'.clipboardWrites = [] ∧
      s'.notifications = [] ++
        [{ id := 0, className := "notification error",
           textContent := "No text to copy!", transform := "translateX(100%)",
           backgroundColor := "#e74c3c" }] ∧
      s'.copyLabel = "Copy Text" ∧
      s'.value = spaces :=
  ⟨by decide, copyText_empty (fun _ => .ok ()) (samplePage spaces true) (by decide)⟩

/-- C6: when the buffer is not empty after trimming, `copyText` calls the clipboard write
once, with the whole untrimmed buffer.  If the write succeeds a success notification is
added and the copy button reads "Copied!"; if it fails an error notification reading
"Failed to copy text" is added, the fault is logged, the label is untouched and no further
write is made.  Either way the handler ends normally. -/
theorem copyText_nonempty (clipboard : JSString → Except Fault Unit) (s : Page)
    (h : s.value.trim.units ≠ []) :
    ∃ s', copyText clipboard s = .ok s' ∧
      s'.clipboardWrites = s.clipboardWrites ++ [s.value] ∧
      s'.value = s.value ∧
      (clipboard s.value = .ok () →
        s'.notifications = s.notifications ++
          [{ id := s.nextId, className := "notification success",
             textContent := "Text copied to clipboard!", transform := "translateX(100%)",
             backgroundColor := "#2ecc71" }] ∧
        s'.copyLabel = "Copied!" ∧
        s'.console = s.console) ∧
      (∀ err, clipboard s.value = .error err →
        s'.notifications = s.notifications ++
          [{ id := s.nextId, className := "notification error",
             textContent := "Failed to copy text", transform := "translateX(100%)",
             backgroundColor := "#e74c3c" }] ∧
        s'.copyLabel = s.copyLabel ∧
        s'.console = s.console ++ [("Failed to copy text: ", err)]) := by
  have ht : s.value.trim.truthy = true := by
    simp only [JSString.truthy, Bool.not_eq_true', List.isEmpty_eq_false]
    exact h
  cases hc : clipboard s.value with
  | ok u =>
    cases u
    refine ⟨_, by simp [copyText, copyTextStart, ht, hc, copyTextResume]; rfl, ?_, ?_, ?_, ?_⟩
    · simp [showNotification, setTimeout]
    · simp [showNotification, setTimeout]
    · intro _
      refine ⟨?_, ?_, ?_⟩ <;> simp [showNotification, setTimeout]
    · intro err herr
      cases herr
  | error e =>
    refine ⟨_, by simp [copyText, copyTextStart, ht, hc, copyTextResume]; rfl, ?_, ?_, ?_, ?_⟩
    · simp [showNotification, setTimeout]
    · simp [showNotification, setTimeout]
    · intro hok
      cases hok
    · intro err herr
      cases herr
      refine ⟨?_, ?_, ?_⟩ <;> simp [showNotification, setTimeout]

/-- The witness of C6: the buffer `"  hi "` against a clipboard that rejects every write. -/
theorem copyText_nonempty_witness :
    paddedHi.trim.units ≠ [] ∧
    ∃ s', copyText (fun _ => .error "denied") (samplePage paddedHi true) = .ok s' ∧
      s'.clipboardWrites = [] ++ [paddedHi] ∧
      s'.value = paddedHi ∧
      ((fun _ => Except.error "denied" : JSString → Except Fault Unit) paddedHi = .ok () →
        s'.notifications = [] ++
          [{ id := 0, className := "notification success",
             textContent := "Text copied to clipboard!", transform := "translateX(100%)",
             backgroundColor := "#2ecc71" }] ∧
        s'.copyLabel = "Copied!" ∧
        s'.console = []) ∧
      (∀ err, (fun _ => Except.error "denied" : JSString → Except Fault Unit) paddedHi
          = .error err →
        s'.notifications = [] ++
          [{ id := 0, className := "notification error",
             textContent := "Failed to copy text", transform := "translateX(100%)",
             backgroundColor := "#e74c3c" }] ∧
        s'.copyLabel = "Copy Text" ∧
        s'.console = [] ++ [("Failed to copy text: ", err)]) :=
  ⟨by decide, copyText_nonempty (fun _ => .error "denied") (samplePage paddedHi true) (by decide)⟩

/-- C7: a second `updateCounter` right after a first one shows the same count, remaining
count, progress width, progress label, palette colours and border colour, and neither call
touches the buffer. -/
theorem updateCounter_idempotent (MAX_LENGTH : JSNumber) (s : Page) :
    (updateCounter MAX_LENGTH (updateCounter MAX_LENGTH s)).displays =
      (updateCounter MAX_LENGTH s).displays ∧
    (updateCounter MAX_LENGTH s).value = s.value ∧
    (updateCounter MAX_LENGTH (updateCounter MAX_LENGTH s)).value = s.value := by
  have h1 := updateCounter_fields MAX_LENGTH s
  have h2 := updateCounter_fields MAX_LENGTH (updateCounter MAX_LENGTH s)
  have hc := updateCounter_colours MAX_LENGTH s (updateCounter MAX_LENGTH s) h1.1 h1.2.1
  obtain ⟨a1, a2, a3, a4, a5, a6, -, -⟩ := h1
  obtain ⟨b1, b2, b3, b4, b5, b6, -, -⟩ := h2
  refine ⟨?_, a1, by rw [b1, a1]⟩
  simp only [Page.displays, hc.1, hc.2.1, hc.2.2, b3, b4, b5, b6, a3, a4, a5, a6, a1]

/-- C8 (amended to a field that can take focus and a maximum a Number holds exactly): when
the field can take focus or already has it, and the configured maximum is an integer that is
exactly a double, after `clearText` the buffer is empty, the field has focus, the displays
are those of `updateCounter` on the empty buffer (count `0`, remaining count exactly the
maximum), the clear button reads "Cleared!" and its reset is scheduled; a second `clearText`
gives the same buffer, focus, displays and label, and schedules the reset again. -/
theorem clearText_idempotent (M : Int) (s : Page)
    (hfocus : s.focusable = true ∨ s.focused = true)
    (hM : (JSNumber.exact M).isDouble = true) :
    (clearText (JSNumber.ofInt M) s).value = JSString.empty ∧
    (clearText (JSNumber.ofInt M) s).focused = true ∧
    (clearText (JSNumber.ofInt M) s).displays =
      (updateCounter (JSNumber.ofInt M)
        { s with value := JSString.empty, focused := true }).displays ∧
    (clearText (JSNumber.ofInt M) s).totalText = .num (JSNumber.ofNat 0) ∧
    (clearText (JSNumber.ofInt M) s).remainingText = .num (JSNumber.exact M) ∧
    (clearText (JSNumber.ofInt M) s).clearLabel = "Cleared!" ∧
    (clearText (JSNumber.ofInt M) s).timers =
      s.timers ++ [(300, Callback.removePulse), (1000, Callback.restoreClearLabel)] ∧
    (runCallback (JSNumber.ofInt M) .restoreClearLabel
      (clearText (JSNumber.ofInt M) s)).clearLabel = "Clear Text" ∧
    (clearText (JSNumber.ofInt M) (clearText (JSNumber.ofInt M) s)).value = JSString.empty ∧
    (clearText (JSNumber.ofInt M) (clearText (JSNumber.ofInt M) s)).focused = true ∧
    (clearText (JSNumber.ofInt M) (clearText (JSNumber.ofInt M) s)).displays =
      (clearText (JSNumber.ofInt M) s).displays ∧
    (clearText (JSNumber.ofInt M) (clearText (JSNumber.ofInt M) s)).clearLabel = "Cleared!" ∧
    (clearText (JSNumber.ofInt M) (clearText (JSNumber.ofInt M) s)).timers =
      (clearText (JSNumber.ofInt M) s).timers ++
        [(300, Callback.removePulse), (1000, Callback.restoreClearLabel)] := by
  have hof : JSNumber.ofInt M = JSNumber.exact M := JSNumber.round_of_isDouble hM _
  have hsub := JSNumber.sub_zero_of_isDouble hM
  rw [hof]
  have key := clearText_fields (JSNumber.exact M)
  have k1 := key s hfocus
  have k2 := key (clearText (JSNumber.exact M) s) (Or.inr k1.2.1)
  have hf := updateCounter_fields (JSNumber.exact M)
    { s with value := JSString.empty, focused := true }
  have hcol := updateCounter_colours (JSNumber.exact M)
    { s with value := JSString.empty, focused := true }
    { clearText (JSNumber.exact M) s with value := JSString.empty, focused := true } rfl rfl
  have hf2 := updateCounter_fields (JSNumber.exact M)
    { clearText (JSNumber.exact M) s with value := JSString.empty, focused := true }
  have hlen : JSString.empty.length = JSNumber.ofNat 0 := rfl
  have hrestore : (runCallback (JSNumber.exact M) .restoreClearLabel
      (clearText (JSNumber.exact M) s)).clearLabel = "Clear Text" := by
    simp only [runCallback]
  refine ⟨k1.1, k1.2.1, k1.2.2.1, ?_, ?_, k1.2.2.2.1, k1.2.2.2.2, hrestore, k2.1, k2.2.1, ?_,
    k2.2.2.2.1, k2.2.2.2.2⟩
  · have := congrArg (fun d => d.1) k1.2.2.1
    simp only [Page.displays] at this
    rw [this, hf.2.2.1, hlen]
  · have := congrArg (fun d => d.2.1) k1.2.2.1
    simp only [Page.displays] at this
    rw [this, hf.2.2.2.1, hlen, hsub]
  · rw [k2.2.2.1, k1.2.2.1]
    simp only [Page.displays, hcol.1, hcol.2.1, hcol.2.2, hf.2.2.1, hf.2.2.2.1, hf.2.2.2.2.1,
      hf.2.2.2.2.2.1, hf2.2.2.1, hf2.2.2.2.1, hf2.2.2.2.2.1, hf2.2.2.2.2.2.1]

/-- The witness of C8: a maximum of 10 and a focusable, unfocused field holding `"hello"`. -/
theorem clearText_idempotent_witness :
    ((samplePage hello false).focusable = true ∨ (samplePage hello false).focused = true) ∧
    (JSNumber.exact 10).isDouble = true ∧
    (clearText (JSNumber.ofInt 10) (samplePage hello false)).value = JSString.empty ∧
    (clearText (JSNumber.ofInt 10) (samplePage hello false)).focused = true ∧
    (clearText (JSNumber.ofInt 10) (samplePage hello false)).remainingText =
      .num (JSNumber.exact 10) ∧
    (clearText (JSNumber.ofInt 10)
      (clearText (JSNumber.ofInt 10) (samplePage hello false))).displays =
      (clearText (JSNumber.ofInt 10) (samplePage hello false)).displays :=
  ⟨by decide, by decide,
    (clearText_idempotent 10 (samplePage hello false) (by decide) (by decide)).1,
    (clearText_idempotent 10 (samplePage hello false) (by decide) (by decide)).2.1,
    (clearText_idempotent 10 (samplePage hello false) (by decide) (by decide)).2.2.2.2.1,
    (clearText_idempotent 10 (samplePage hello false) (by decide)
      (by decide)).2.2.2.2.2.2.2.2.2.2.1⟩

/-- The counterexample to C8 as stated.  On a field that cannot take focus and does not have
it, `clearText` leaves the field without focus and the border neutral; and with a maximum
of `2^53 + 1`, which no double holds, the remaining count shown is `2^53`. -/
theorem clearText_idempotent_counterexample :
    (clearText (JSNumber.ofInt 10)
      { samplePage hello false with focusable := false }).focused = false ∧
    (clearText (JSNumber.ofInt 10)
      { samplePage hello false with focusable := false }).borderColor = "#e0e0e0" ∧
    (clearText (JSNumber.ofInt (2 ^ 53 + 1)) (samplePage hello false)).remainingText =
      .num (JSNumber.exact (2 ^ 53)) ∧
    (clearText (JSNumber.ofInt (2 ^ 53 + 1)) (samplePage hello false)).remainingText ≠
      .num (JSNumber.exact (2 ^ 53 + 1)) := by
  decide

/-- C9: `updateVisualState` sets the border to red when the percentage is at least 100,
otherwise to the accent colour when the field has focus, otherwise to the neutral colour; a
percentage of at least 100 gives red whatever the focus, and a red border comes with the
danger colour and gradient. -/
theorem updateVisualState_border (currentLength percentage : JSNumber) (s : Page) :
    (updateVisualState currentLength percentage s).borderColor =
        (if percentage.ge (JSNumber.ofNat 100) = true then "#e74c3c"
         else if s.focused = true then "#3498db" else "#e0e0e0") ∧
    (percentage.ge (JSNumber.ofNat 100) = true →
      (updateVisualState currentLength percentage { s with focused := true }).borderColor
          = "#e74c3c" ∧
      (updateVisualState currentLength percentage { s with focused := false }).borderColor
          = "#e74c3c") ∧
    ((updateVisualState currentLength percentage s).borderColor = "#e74c3c" →
      (updateVisualState currentLength percentage s).remainingColor = "#e74c3c" ∧
      (updateVisualState currentLength percentage s).fillBackground =
        "linear-gradient(90deg, #e74c3c, #c0392b)") := by
  have hborder := updateVisualState_borderColor currentLength percentage s
  refine ⟨hborder, ?_, ?_⟩
  · intro h
    simp [updateVisualState, h]
  · intro hred
    rw [hborder] at hred
    have h100 : percentage.ge (JSNumber.ofNat 100) = true := by
      by_contra hn
      rw [if_neg hn] at hred
      split_ifs at hred <;> exact absurd hred (by decide)
    have h90 := JSNumber.ge_ofNat_of_ge_ofNat (by decide : 90 ≤ 100) h100
    simp [updateVisualState, h90, h100]

/-- C10: when the buffer is no longer than a configured non-negative integer maximum, the
deferred correction of `handlePaste` leaves the buffer as it is and does exactly what
`updateCounter` does; and for every buffer, after the correction the buffer is no longer
than the maximum and the remaining count shown is a non-negative Number. -/
theorem pasteCorrection_frame (M : Int) (s : Page) (hM : 0 ≤ M) :
    ((s.value.units.length : Int) ≤ M →
      (pasteCorrection (JSNumber.ofInt M) s).value = s.value ∧
      pasteCorrection (JSNumber.ofInt M) s = updateCounter (JSNumber.ofInt M) s) ∧
    ((pasteCorrection (JSNumber.ofInt M) s).value.units.length : Int) ≤ M ∧
    (∃ r, (pasteCorrection (JSNumber.ofInt M) s).remainingText = .num r ∧
      r.ge (JSNumber.ofNat 0) = true) := by
  have hu := JSNumber.unit_pos
  have hb := s.value.bound
  obtain ⟨m, rfl⟩ := Int.eq_ofNat_of_zero_le hM
  have hframe : ∀ MAX : JSNumber, s.value.length.gt MAX = false →
      (pasteCorrection MAX s).value = s.value ∧ pasteCorrection MAX s = updateCounter MAX s := by
    intro MAX hgt
    simp [pasteCorrection, hgt, updateCounter_value]
  rcases JSNumber.ofInt_nonneg_cases (z := (m : Int)) hM with ⟨hsmall, hof⟩ | ⟨hbig, hinf | ⟨v, hof, hv⟩⟩
  · rw [hof]
    simp only [Int.toNat_ofNat]
    have hl := pasteCorrection_length_fin (m * unit) s
    refine ⟨?_, ?_, pasteCorrection_remaining_fin _ s⟩
    · intro hlen
      have hlen' : s.value.units.length ≤ m := by exact_mod_cast hlen
      apply hframe
      simp only [JSNumber.gt, JSNumber.lt, JSString.length, JSNumber.ofNat, JSNumber.signed,
        Bool.false_eq_true, if_false, decide_eq_false_iff_not]
      have := Nat.mul_le_mul_right unit hlen'
      omega
    · have := Nat.le_of_mul_le_mul_right hl.1 hu
      exact_mod_cast this
  · rw [hinf]
    have hgt : s.value.length.gt (JSNumber.inf false) = false := rfl
    have hfr := hframe _ hgt
    have hbig' : 2 ^ 53 < m := by exact_mod_cast hbig
    refine ⟨fun _ => hfr, ?_, ?_⟩
    · rw [hfr.1]
      have : s.value.units.length ≤ m := by omega
      exact_mod_cast this
    · exact ⟨_, pasteCorrection_remainingText _ s, rfl⟩
  · rw [hof]
    have hl := pasteCorrection_length_fin v s
    have hbig' : 2 ^ 53 < m := by exact_mod_cast hbig
    refine ⟨fun _ => ?_, ?_, pasteCorrection_remaining_fin _ s⟩
    · apply hframe
      simp only [JSNumber.gt, JSNumber.lt, JSString.length, JSNumber.ofNat, JSNumber.signed,
        Bool.false_eq_true, if_false, decide_eq_false_iff_not]
      have := Nat.mul_lt_mul_of_pos_right hb hu
      omega
    · have : (pasteCorrection (JSNumber.fin false v) s).value.units.length ≤ m := by omega
      exact_mod_cast this

/-- The witness of C10: a maximum of 10 and the buffer `"hello"`. -/
theorem pasteCorrection_frame_witness :
    (0 : Int) ≤ 10 ∧
    (((samplePage hello false).value.units.length : Int) ≤ 10 →
      (pasteCorrection (JSNumber.ofInt 10) (samplePage hello false)).value =
        (samplePage hello false).value ∧
      pasteCorrection (JSNumber.ofInt 10) (samplePage hello false) =
        updateCounter (JSNumber.ofInt 10) (samplePage hello false)) ∧
    ((pasteCorrection (JSNumber.ofInt 10) (samplePage hello false)).value.units.length : Int)
      ≤ 10 ∧
    (∃ r, (pasteCorrection (JSNumber.ofInt 10) (samplePage hello false)).remainingText = .num r ∧
      r.ge (JSNumber.ofNat 0) = true) :=
  ⟨by decide, pasteCorrection_frame 10 (samplePage hello false) (by decide)⟩

end CharCounter
